import Mathlib

/-!
Shallow embedding of the rocks-monitoramento backend core
(src/app/api/routes.py, src/app/dependencies.py, src/app/models.py,
src/app/schemas.py) in Lean 4, together with theorems settling the
frozen claims about the ownership gate, machine upsert, configuration
round-trip, metrics storage/query and the aggregation engine.

Modelling conventions:
* Python JSON-ish values (the `dict[str, Any]` payloads) are the
  inductive `PyVal`; Python dicts are association lists with unique
  keys, `dict.get` is lookup of the first binding.
* Python `bool` is a distinct constructor, but — as in CPython, where
  `bool` subclasses `int` — the `isinstance(v, (int, float))` test
  accepts it and `float(True) = 1.0`.
* Python floats are modelled as `Rat` (the aggregation claims concern
  which values are selected, not rounding).
* `datetime` objects are `PyDatetime` (civil fields plus an optional
  UTC offset in minutes; `none` = naive).  `datetime.fromisoformat`
  is modelled for the fixed-width `YYYY-MM-DDTHH:MM:SS[±HH:MM]`
  forms it accepts in every CPython version; all other strings fail,
  as `"garbage"` does in CPython.
* The SQLAlchemy session is a `DB` record; `session.scalar(select…)`
  is `List.find?`, committing a mutated row rewrites it in place
  (`replaceFirst`), inserting appends.  The ambient clock `DB.now`
  stands for `datetime.utcnow()`.
* An HTTP handler returns `Except HandlerErr α` paired with the
  resulting `DB`; `HandlerErr.http` is a raised `HTTPException`,
  `HandlerErr.exn` an uncaught Python exception (surfacing as a 500).
-/

namespace RocksMon

/-- A Python value as found in the JSON payloads of this service. -/
inductive PyVal where
  | pnone : PyVal
  | pbool : Bool → PyVal
  | pint : Int → PyVal
  | pfloat : Rat → PyVal
  | pstr : String → PyVal
  | plist : List PyVal → PyVal
  | pdict : List (String × PyVal) → PyVal

/-- Lookup in a Python dict (association list): `d.get(k)` without default. -/
def dictGet (xs : List (String × PyVal)) (k : String) : Option PyVal :=
  (xs.find? (fun p => p.1 == k)).map (·.2)

/-- Lookup with a default: `d.get(k, dflt)`. -/
def dictGetD (xs : List (String × PyVal)) (k : String) (dflt : PyVal) : PyVal :=
  (dictGet xs k).getD dflt

/-- Python truthiness of a value (`bool(v)`). -/
def pyTruthy : PyVal → Bool
  | .pnone => false
  | .pbool b => b
  | .pint n => n != 0
  | .pfloat q => q != 0
  | .pstr s => s != ""
  | .plist xs => !xs.isEmpty
  | .pdict xs => !xs.isEmpty

/-- Python `a or b`: `a` when truthy, else `b`. -/
def pyOr (a b : PyVal) : PyVal :=
  if pyTruthy a then a else b

/-- A `datetime` value: civil fields plus optional UTC offset in minutes
(`none` means a naive datetime). -/
structure PyDatetime where
  year : Nat
  month : Nat
  day : Nat
  hour : Nat
  minute : Nat
  second : Nat
  offsetMinutes : Option Int
deriving DecidableEq, Repr

/-- Days since the Unix epoch for a civil date (Howard Hinnant's
`days_from_civil`, the arithmetic underlying `datetime` ordering). -/
def daysFromCivil (y : Int) (m d : Nat) : Int :=
  let y' : Int := if m ≤ 2 then y - 1 else y
  let era : Int := (if 0 ≤ y' then y' else y' - 399) / 400
  let yoe : Int := y' - era * 400
  let mp : Nat := (m + 9) % 12
  let doy : Nat := (153 * mp + 2) / 5 + d - 1
  let doe : Int := yoe * 365 + yoe / 4 - yoe / 100 + doy
  era * 146097 + doe - 719468

/-- The instant of a datetime in seconds since the epoch; a naive
datetime is read at offset zero (all stored timestamps are aware). -/
def toEpoch (dt : PyDatetime) : Int :=
  daysFromCivil dt.year dt.month dt.day * 86400
    + dt.hour * 3600 + dt.minute * 60 + dt.second
    - (dt.offsetMinutes.getD 0) * 60

/-- Value of a decimal digit character, `none` if not a digit. -/
def digitVal (c : Char) : Option Nat :=
  if c.isDigit then some (c.toNat - 48) else none

/-- Two-digit decimal number from two characters. -/
def digits2 (a b : Char) : Option Nat := do
  let x ← digitVal a
  let y ← digitVal b
  pure (x * 10 + y)

/-- Four-digit decimal number from four characters. -/
def digits4 (a b c d : Char) : Option Nat := do
  let x ← digits2 a b
  let y ← digits2 c d
  pure (x * 100 + y)

/-- Range checks performed by the `datetime` constructor. -/
def validCivil (y mo d h mi s : Nat) : Bool :=
  1 ≤ y && 1 ≤ mo && mo ≤ 12 && 1 ≤ d && d ≤ 31 && h ≤ 23 && mi ≤ 59 && s ≤ 59

/-- Shared core of `fromisoformat` on an exploded string: the
`YYYY-MM-DDTHH:MM:SS` prefix with an optional `±HH:MM` offset. -/
def parseIsoChars : List Char → Option PyDatetime
  | [y1, y2, y3, y4, '-', a1, a2, '-', d1, d2, 'T',
     h1, h2, ':', m1, m2, ':', s1, s2] => do
    let y ← digits4 y1 y2 y3 y4
    let mo ← digits2 a1 a2
    let d ← digits2 d1 d2
    let h ← digits2 h1 h2
    let mi ← digits2 m1 m2
    let s ← digits2 s1 s2
    if validCivil y mo d h mi s then
      pure ⟨y, mo, d, h, mi, s, none⟩
    else none
  | [y1, y2, y3, y4, '-', a1, a2, '-', d1, d2, 'T',
     h1, h2, ':', m1, m2, ':', s1, s2, sg, o1, o2, ':', o3, o4] => do
    let y ← digits4 y1 y2 y3 y4
    let mo ← digits2 a1 a2
    let d ← digits2 d1 d2
    let h ← digits2 h1 h2
    let mi ← digits2 m1 m2
    let s ← digits2 s1 s2
    let oh ← digits2 o1 o2
    let om ← digits2 o3 o4
    let sign ← if sg = '+' then some (1 : Int) else
               if sg = '-' then some (-1 : Int) else none
    if validCivil y mo d h mi s && oh ≤ 23 && om ≤ 59 then
      pure ⟨y, mo, d, h, mi, s, some (sign * (oh * 60 + om))⟩
    else none
  | _ => none

/-- `datetime.fromisoformat` (restricted to the fixed-width forms
accepted by every CPython version; anything else fails). -/
def fromisoformat (s : String) : Option PyDatetime :=
  parseIsoChars s.toList

/-- `timestamp_str.replace("Z", "+00:00")`: Python `str.replace`
substitutes every occurrence of the single-character pattern. -/
def zReplaceChars : List Char → List Char
  | [] => []
  | c :: cs =>
    if c = 'Z' then '+' :: '0' :: '0' :: ':' :: '0' :: '0' :: zReplaceChars cs
    else c :: zReplaceChars cs

/-- String form of the `Z`-to-`+00:00` normalization. -/
def zReplace (s : String) : String :=
  String.mk (zReplaceChars s.toList)

/-! ## Data model (src/app/models.py) -/

/-- Row of the `users` table (the fields the core logic touches). -/
structure User where
  id : Nat
  email : String
deriving DecidableEq, Repr

/-- Row of the `machines` table. -/
structure Machine where
  id : Nat
  mac_address : String
  name : String
  type : String
  owner_id : Nat
  updated_at : PyDatetime
deriving DecidableEq, Repr

/-- Row of the `machine_configurations` table (`raw_payload` is the
stored JSON document). -/
structure MachineConfiguration where
  machine_id : Nat
  raw_payload : List (String × PyVal)
  updated_at : PyDatetime

/-- Row of the `monitoring_data` table. -/
structure MonitoringData where
  machine_id : Nat
  timestamp : PyDatetime
  metrics : List (String × PyVal)
  reference_id : String

/-- The persistent store plus ambient effects: tables, the id sequence
for `machines`, the next `uuid4().hex` to be handed out, and the
current naive-UTC clock (`datetime.utcnow()`). -/
structure DB where
  machines : List Machine
  configurations : List MachineConfiguration
  monitoring : List MonitoringData
  nextMachineId : Nat
  nextRef : String
  now : PyDatetime

/-- `datetime.now(timezone.utc)` / `utcnow().replace(tzinfo=utc)`:
the clock made offset-aware at UTC. -/
def DB.nowUtc (db : DB) : PyDatetime :=
  { db.now with offsetMinutes := some 0 }

/-- Committing a mutated ORM row: rewrite the first row matching the
predicate in place, leaving every other row where it is. -/
def replaceFirst (p : α → Bool) (a : α) : List α → List α
  | [] => []
  | x :: xs => if p x then a :: xs else x :: replaceFirst p a xs

/-- Outcome of a handler: an `HTTPException` with status code and
detail, or an uncaught Python exception (a 500 at the transport). -/
inductive HandlerErr where
  | http : Nat → String → HandlerErr
  | exn : String → HandlerErr
deriving DecidableEq, Repr

/-! ## Ownership gate (src/app/dependencies.py, ensure_machine_ownership) -/

/-- The single ownership gate: select the machine by the compound
(mac_address, owner_id) match; absent means 404 "Machine not found". -/
def ensure_machine_ownership (mac_address : String) (user : User) (db : DB) :
    Except HandlerErr Machine :=
  match db.machines.find? (fun m => m.mac_address == mac_address && m.owner_id == user.id) with
  | none => .error (.http 404 "Machine not found")
  | some machine => .ok machine

/-! ## Machine upsert (src/app/api/routes.py, _get_or_create_machine) -/

/-- `_get_or_create_machine`: look up by MAC alone; reject a foreign
owner with 400; update name/type in place only when they differ
(committing bumps `updated_at` via the `onupdate` hook); otherwise
create a fresh machine owned by the caller. -/
def get_or_create_machine (user : User) (mac_address name machine_type : String)
    (db : DB) : Except HandlerErr Machine × DB :=
  match db.machines.find? (fun m => m.mac_address == mac_address) with
  | some machine =>
    if machine.owner_id != user.id then
      (.error (.http 400 "Machine belongs to another user"), db)
    else
      let updated := machine.name != name || machine.type != machine_type
      if updated then
        let machine' := { machine with
          name := name, type := machine_type, updated_at := db.nowUtc }
        (.ok machine',
         { db with machines :=
            replaceFirst (fun m => m.mac_address == mac_address) machine' db.machines })
      else
        (.ok machine, db)
  | none =>
    let machine : Machine :=
      ⟨db.nextMachineId, mac_address, name, machine_type, user.id, db.nowUtc⟩
    (.ok machine,
     { db with machines := db.machines ++ [machine],
               nextMachineId := db.nextMachineId + 1 })

/-! ## Configuration payload (src/app/schemas.py, MachineConfigPayload)

Pydantic model with `populate_by_name=True` and `extra="allow"`:
each declared field is accepted under its alias or its field name
(alias first), unknown keys are kept as extras, and
`model_dump(by_alias=True)` emits the declared fields under their
aliases in declaration order followed by the extras. -/

/-- MAC correlation of a metrics payload: the nested
`machine_info.mac` probe (with an empty-dict default) followed by the
`or`-fallback to the top-level `mac_address`; probing `.get("mac")` on
a non-dict `machine_info` raises `AttributeError`. -/
def derive_mac (data : List (String × PyVal)) : Except HandlerErr PyVal :=
  match dictGetD data "machine_info" (.pdict []) with
  | .pdict mi =>
    .ok (pyOr ((dictGet mi "mac").getD .pnone) ((dictGet data "mac_address").getD .pnone))
  | _ => .error (.exn "AttributeError")

/-- `update_machine_status` (PUT /maquina/status): derive the MAC (400
when falsy), gate on ownership, resolve the timestamp (a string is
`Z`-normalized and parsed — an unparseable string raises `ValueError`;
anything else is stamped with current UTC), then append a new
monitoring row and acknowledge with its reference id and timestamp. -/
def update_machine_status (data : List (String × PyVal)) (user : User) (db : DB) :
    Except HandlerErr (String × PyDatetime) × DB :=
  match derive_mac data with
  | .error e => (.error e, db)
  | .ok mac =>
    if !pyTruthy mac then
      (.error (.http 400 "MAC address missing in payload"), db)
    else
      -- the select compares the stored MAC column to the derived value;
      -- a truthy non-string never equals a stored string MAC
      let gate := match mac with
        | .pstr s => ensure_machine_ownership s user db
        | _ => .error (.http 404 "Machine not found")
      match gate with
      | .error e => (.error e, db)
      | .ok machine =>
        let insert := fun (ts : PyDatetime) =>
          let record : MonitoringData := ⟨machine.id, ts, data, db.nextRef⟩
          ((.ok (db.nextRef, ts) : Except HandlerErr (String × PyDatetime)),
           { db with monitoring := db.monitoring ++ [record] })
        match dictGetD data "timestamp" .pnone with
        | .pstr s =>
          match fromisoformat (zReplace s) with
          | none => (.error (.exn "ValueError"), db)
          | some ts => insert ts
        | _ => insert db.nowUtc

/-! ## Metrics query (src/app/api/routes.py, list_machine_metrics) -/

/-- Newest-first order on monitoring rows (`timestamp.desc()`). -/
def newestFirst (a b : MonitoringData) : Prop :=
  toEpoch b.timestamp ≤ toEpoch a.timestamp

instance : DecidableRel newestFirst :=
  fun _ _ => inferInstanceAs (Decidable (_ ≤ _))

instance : IsTotal MonitoringData newestFirst :=
  ⟨fun _ _ => le_total _ _⟩

instance : IsTrans MonitoringData newestFirst :=
  ⟨fun _ _ _ h1 h2 => le_trans h2 h1⟩

/-- Window-and-machine filter of the metrics query: the row belongs to
the machine and lies in the inclusive `[start, end]` window. -/
def inWindow (machineId : Nat) (start end_ : Option PyDatetime) (r : MonitoringData) : Bool :=
  r.machine_id == machineId
  && (match start with
      | none => true
      | some s => decide (toEpoch s ≤ toEpoch r.timestamp))
  && (match end_ with
      | none => true
      | some e => decide (toEpoch r.timestamp ≤ toEpoch e))

/-- A SQL `LIMIT n` on the result rows; the SQLite backend the repo
tests against ignores a negative limit. -/
def applyLimit (limit : Int) (xs : List α) : List α :=
  if limit < 0 then xs else xs.take limit.toNat

/-- `list_machine_metrics` (GET /metrics/mac): the `limit` query
parameter is validated against the hard ceiling (`le=1000`, a 422
when exceeded), then the gate runs and the machine's rows in the
window are returned newest-first, at most `limit` of them. -/
def list_machine_metrics (mac : String) (start end_ : Option PyDatetime)
    (limit : Int) (user : User) (db : DB) :
    Except HandlerErr (List MonitoringData) :=
  if 1000 < limit then
    .error (.http 422 "Input should be less than or equal to 1000")
  else
    match ensure_machine_ownership mac user db with
    | .error e => .error e
    | .ok machine =>
      .ok (applyLimit limit
        ((db.monitoring.filter (inWindow machine.id start end_)).insertionSort newestFirst))

/-! ## Aggregation engine (src/app/api/routes.py, aggregate_metrics) -/

/-- The `isinstance(value, (int, float))` test followed by
`float(value)`: in CPython `bool` is a subclass of `int`, so booleans
pass and cast to 1.0 / 0.0. -/
def floatCast : PyVal → Option Rat
  | .pbool b => some (if b then 1 else 0)
  | .pint n => some (n : Rat)
  | .pfloat q => some q
  | _ => none

/-- The fixed nested-field priority order. -/
def aggregationCandidates : List String := ["usage", "percent", "value"]

/-- The inner `for candidate in (...)` loop with its `break`: the first
candidate whose value passes the numeric test wins. -/
def probeCandidates (nested : List (String × PyVal)) : List String → Option Rat
  | [] => none
  | c :: cs =>
    match floatCast ((dictGet nested c).getD .pnone) with
    | some q => some q
    | none => probeCandidates nested cs

/-- The outer `for record in records` loop of `aggregate_metrics`,
appending to `values`. -/
def collectValues (key : String) (records : List MonitoringData) : List Rat :=
  records.foldl (fun values record =>
    let value := dictGetD record.metrics key .pnone
    match floatCast value with
    | some q => values ++ [q]
    | none =>
      match value with
      | .pdict nested =>
        match probeCandidates nested aggregationCandidates with
        | some q => values ++ [q]
        | none => values
      | _ => values) []

/-- Aggregate summary row (`MetricsAggregate` schema). -/
structure MetricsAggregate where
  metric : String
  minimum : Option Rat
  maximum : Option Rat
  average : Option Rat
deriving DecidableEq, Repr

/-- Per-key body of the `for key in metric_keys` loop: empty value set
means all-absent, otherwise `min`, `max` and `statistics.mean`. -/
def aggregateForKey (records : List MonitoringData) (key : String) : MetricsAggregate :=
  match collectValues key records with
  | [] => ⟨key, none, none, none⟩
  | v :: vs =>
    ⟨key, some (vs.foldl min v), some (vs.foldl max v),
     some (((v :: vs).foldl (· + ·) 0) / ((v :: vs).length : Rat))⟩

/-- `aggregate_metrics` (GET /metrics/mac/aggregate): gate on
ownership, scan all of the machine's rows (no time filter), one
summary per requested key in request order. -/
def aggregate_metrics (mac : String) (metric_keys : List String) (user : User)
    (db : DB) : Except HandlerErr (List MetricsAggregate) :=
  match ensure_machine_ownership mac user db with
  | .error e => .error e
  | .ok machine =>
    let records := db.monitoring.filter (fun r => r.machine_id == machine.id)
    .ok (metric_keys.map (aggregateForKey records))

/-! ## Claim-side characterisation used by C6 -/

/-- Per-record value selection as the aggregation claim describes it:
a numeric scalar is taken directly, a nested document yields the first
numeric field among `usage`, `percent`, `value`, anything else yields
nothing — at most one value per record. -/
def claimContribution (key : String) (doc : List (String × PyVal)) : Option Rat :=
  match dictGet doc key with
  | none => none
  | some v =>
    match floatCast v with
    | some q => some q
    | none =>
      match v with
      | .pdict nested => probeCandidates nested aggregationCandidates
      | _ => none

/-! ## Concrete fixtures used by witnesses and counterexamples -/

/-- A fixed clock value for the sample stores. -/
def sampleNow : PyDatetime := ⟨2024, 5, 20, 12, 0, 0, none⟩

/-- A registered user. -/
def user1 : User := ⟨1, "ops@example.com"⟩

/-- A second registered user, distinct from `user1`. -/
def user2 : User := ⟨2, "intruder@example.com"⟩

/-- A machine owned by `user1`. -/
def machine1 : Machine := ⟨1, "AA:BB", "Desktop-01", "pc", 1, ⟨2024, 5, 20, 11, 0, 0, some 0⟩⟩

/-- A store holding just `machine1`. -/
def db1 : DB := ⟨[machine1], [], [], 2, "ref-1", sampleNow⟩

/-! ## Shared list lemmas about the store operations -/

theorem find?_replaceFirst_of_found (p : α → Bool) (a : α) {l : List α} {x : α}
    (h : l.find? p = some x) (ha : p a = true) :
    (replaceFirst p a l).find? p = some a := by
  induction l with
  | nil => simp [List.find?] at h
  | cons y ys ih =>
    by_cases hy : p y = true
    · simp [replaceFirst, hy, List.find?, ha]
    · rw [List.find?_cons_of_neg _ (by simp [hy])] at h
      simp only [replaceFirst, hy, if_neg, Bool.false_eq_true, not_false_iff, ite_false]
      rw [List.find?_cons_of_neg _ (by simp [hy])]
      exact ih h

theorem find?_append_single_of_none (p : α → Bool) (a : α) {l : List α}
    (h : l.find? p = none) (ha : p a = true) :
    (l ++ [a]).find? p = some a := by
  induction l with
  | nil => simp [List.find?, ha]
  | cons y ys ih =>
    rw [List.find?_eq_none] at h
    have hy : ¬ p y = true := h y (by simp)
    rw [List.cons_append, List.find?_cons_of_neg _ hy]
    exact ih (List.find?_eq_none.mpr (fun x hx => h x (by simp [hx])))

/-! ## C1 -/

/-- C1: the ownership gate fails with the one constant
404 / "Machine not found" error whenever no machine with the given MAC
is owned by the requesting user — covering both "no such machine" and
"machine owned by someone else", which are therefore indistinguishable
to the caller (same tag, status and message). -/
theorem c1_ownership_gate_uniform_not_found (db : DB) (u : User) (mac : String)
    (h : ∀ x ∈ db.machines, x.mac_address = mac → x.owner_id ≠ u.id) :
    ensure_machine_ownership mac u db = .error (.http 404 "Machine not found") := by
  have hf : db.machines.find? (fun m => m.mac_address == mac && m.owner_id == u.id) = none := by
    rw [List.find?_eq_none]
    intro x hx
    simp only [Bool.and_eq_true, beq_iff_eq, not_and]
    exact fun h1 h2 => h x hx h1 h2
  unfold ensure_machine_ownership
  rw [hf]

/-- C1 witness: `machine1` has MAC "AA:BB" but belongs to `user1`, so
the gate answers `user2` with the uniform 404, exactly as it would for
the unknown MAC. -/
theorem c1_ownership_gate_uniform_not_found_witness :
    (∀ x ∈ db1.machines, x.mac_address = "AA:BB" → x.owner_id ≠ user2.id) ∧
    ensure_machine_ownership "AA:BB" user2 db1 = .error (.http 404 "Machine not found") :=
  ⟨by decide, c1_ownership_gate_uniform_not_found db1 user2 "AA:BB" (by decide)⟩

/-! ## C2 -/

/-- C2: when the machine with the requested MAC exists but is owned by
user `a`, `_get_or_create_machine` called by a different user `b`
fails with the constant 400 / "Machine belongs to another user" error
and returns the store completely unchanged — no mutation, and an error
value carrying none of the stored machine's data. -/
theorem c2_get_or_create_foreign_owner_conflict (db : DB) (b : User) (m : Machine)
    (name machine_type : String)
    (hfind : db.machines.find? (fun x => x.mac_address == m.mac_address) = some m)
    (hown : m.owner_id ≠ b.id) :
    get_or_create_machine b m.mac_address name machine_type db
      = (.error (.http 400 "Machine belongs to another user"), db) := by
  unfold get_or_create_machine
  rw [hfind]
  simp [bne_iff_ne, hown]

/-- C2 witness: `user2` attempting to register `machine1`'s MAC gets
the ownership conflict and `db1` is untouched. -/
theorem c2_get_or_create_foreign_owner_conflict_witness :
    db1.machines.find? (fun x => x.mac_address == machine1.mac_address) = some machine1 ∧
    machine1.owner_id ≠ user2.id ∧
    get_or_create_machine user2 machine1.mac_address "Stolen" "server" db1
      = (.error (.http 400 "Machine belongs to another user"), db1) :=
  ⟨by decide, by decide,
   c2_get_or_create_foreign_owner_conflict db1 user2 machine1 "Stolen" "server"
     (by decide) (by decide)⟩

/-! ## C5 -/

/-- Helper for the idempotence claim: when the lookup already yields a
machine of the requesting user carrying exactly the requested name and
type, `_get_or_create_machine` answers it without touching the store. -/
theorem get_or_create_machine_noop (db : DB) (u : User)
    (mac name machine_type : String) (m : Machine)
    (hfind : db.machines.find? (fun x => x.mac_address == mac) = some m)
    (hown : m.owner_id = u.id) (hname : m.name = name) (hty : m.type = machine_type) :
    get_or_create_machine u mac name machine_type db = (.ok m, db) := by
  unfold get_or_create_machine
  simp only [hfind]
  simp [hown, hname, hty]

/-- C5: `_get_or_create_machine` is idempotent — after a first
successful call, repeating it with identical (mac, name, type, user)
returns the same machine (hence the same id) and leaves the store
exactly as it was, so in particular `updated_at` is not bumped by the
second call. -/
theorem c5_get_or_create_idempotent (db db₁ : DB) (u : User)
    (mac name machine_type : String) (m : Machine)
    (h : get_or_create_machine u mac name machine_type db = (.ok m, db₁)) :
    get_or_create_machine u mac name machine_type db₁ = (.ok m, db₁) := by
  unfold get_or_create_machine at h
  cases hf : db.machines.find? (fun x => x.mac_address == mac) with
  | some m0 =>
    simp only [hf] at h
    cases hown : (m0.owner_id != u.id) with
    | true => simp [hown] at h
    | false =>
      have hown' : m0.owner_id = u.id := by simpa using hown
      simp only [hown, Bool.false_eq_true, if_false, ite_false] at h
      cases hup : (m0.name != name || m0.type != machine_type) with
      | true =>
        simp only [hup, if_true, ite_true, Prod.mk.injEq, Except.ok.injEq] at h
        obtain ⟨hm, hdb⟩ := h
        subst hm
        subst hdb
        have hp0 := List.find?_some hf
        refine get_or_create_machine_noop _ u mac name machine_type _ ?_ hown' rfl rfl
        exact find?_replaceFirst_of_found _ _ hf hp0
      | false =>
        simp only [hup, Bool.false_eq_true, if_false, ite_false, Prod.mk.injEq,
          Except.ok.injEq] at h
        obtain ⟨hm, hdb⟩ := h
        subst hm
        subst hdb
        have hname : m0.name = name := by
          have := (Bool.or_eq_false_iff.mp hup).1
          simpa using this
        have hty : m0.type = machine_type := by
          have := (Bool.or_eq_false_iff.mp hup).2
          simpa using this
        exact get_or_create_machine_noop db u mac name machine_type m0 hf hown' hname hty
  | none =>
    simp only [hf, Prod.mk.injEq, Except.ok.injEq] at h
    obtain ⟨hm, hdb⟩ := h
    subst hm
    subst hdb
    refine get_or_create_machine_noop _ u mac name machine_type _ ?_ rfl rfl rfl
    exact find?_append_single_of_none _ _ hf (by simp)

/-- C5 witness: repeating registration of `machine1` with its stored
name and type acknowledges the same machine and leaves `db1` as is. -/
theorem c5_get_or_create_idempotent_witness :
    get_or_create_machine user1 "AA:BB" "Desktop-01" "pc" db1 = (.ok machine1, db1) ∧
    get_or_create_machine user1 "AA:BB" "Desktop-01" "pc" db1 = (.ok machine1, db1) :=
  ⟨rfl, c5_get_or_create_idempotent db1 db1 user1 "AA:BB" "Desktop-01" "pc" machine1 rfl⟩

/-! ## C6 -/

/-- Generic shape of an append-only accumulation loop: it equals a
`filterMap` of the per-element selection. -/
theorem foldl_append_eq_filterMap {α β : Type} (g : β → Option α)
    (f : List α → β → List α) (hf : ∀ acc b, f acc b = acc ++ (g b).toList) :
    ∀ (l : List β) (acc : List α), l.foldl f acc = acc ++ l.filterMap g := by
  intro l
  induction l with
  | nil => simp
  | cons b bs ih =>
    intro acc
    rw [List.foldl_cons, hf, ih]
    cases hg : g b <;> simp [List.filterMap_cons, hg]

/-- C6: the aggregation loop takes at most one value from each record —
its collected value list is the `filterMap` of the per-record selection
that takes a numeric scalar directly, probes a nested document for the
first numeric field among `usage`, `percent`, `value`, and otherwise
contributes nothing; in particular a `disk` document with
`percent = 10` and `usage = 20` contributes `20`. -/
theorem c6_aggregation_selects_at_most_one_per_record :
    (∀ (key : String) (records : List MonitoringData),
      collectValues key records
        = records.filterMap (fun r => claimContribution key r.metrics)) ∧
    claimContribution "disk"
      [("disk", .pdict [("percent", .pint 10), ("usage", .pint 20)])] = some 20 := by
  constructor
  · intro key records
    have hstep : ∀ (values : List Rat) (record : MonitoringData),
        (let value := dictGetD record.metrics key .pnone
         match floatCast value with
         | some q => values ++ [q]
         | none =>
           match value with
           | .pdict nested =>
             match probeCandidates nested aggregationCandidates with
             | some q => values ++ [q]
             | none => values
           | _ => values)
        = values ++ (claimContribution key record.metrics).toList := by
      intro values record
      simp only [claimContribution, dictGetD]
      cases hv : dictGet record.metrics key with
      | none => simp [floatCast]
      | some v =>
        cases v with
        | pnone => simp [floatCast]
        | pbool b => simp [floatCast]
        | pint n => simp [floatCast]
        | pfloat q => simp [floatCast]
        | pstr s => simp [floatCast]
        | plist xs => simp [floatCast]
        | pdict nested =>
          cases hp : probeCandidates nested aggregationCandidates <;>
            simp [floatCast, hp]
    calc collectValues key records
        = records.foldl (fun values record =>
            let value := dictGetD record.metrics key .pnone
            match floatCast value with
            | some q => values ++ [q]
            | none =>
              match value with
              | .pdict nested =>
                match probeCandidates nested aggregationCandidates with
                | some q => values ++ [q]
                | none => values
              | _ => values) [] := rfl
      _ = [] ++ records.filterMap (fun r => claimContribution key r.metrics) :=
          foldl_append_eq_filterMap _ _ (fun acc b => hstep acc b) records []
      _ = records.filterMap (fun r => claimContribution key r.metrics) := by simp
  · decide

/-! ## C7 -/

/-- Metric name reported for a key is that key, in both branches of the
per-key aggregation. -/
theorem aggregateForKey_metric (records : List MonitoringData) (key : String) :
    (aggregateForKey records key).metric = key := by
  unfold aggregateForKey
  cases collectValues key records <;> rfl

/-- C7: on a gated machine the aggregate answer has exactly one entry
per requested key, in the caller's order, and a key whose collected
value set is empty is reported with `minimum`, `maximum` and `average`
all absent — not zero and not an error. -/
theorem c7_aggregate_empty_key_all_absent (db : DB) (u : User) (mac : String)
    (keys : List String) (m : Machine)
    (hok : ensure_machine_ownership mac u db = .ok m) :
    aggregate_metrics mac keys u db
      = .ok (keys.map
          (aggregateForKey (db.monitoring.filter (fun r => r.machine_id == m.id)))) ∧
    (keys.map (aggregateForKey
        (db.monitoring.filter (fun r => r.machine_id == m.id)))).map (·.metric) = keys ∧
    (∀ k, collectValues k (db.monitoring.filter (fun r => r.machine_id == m.id)) = [] →
      aggregateForKey (db.monitoring.filter (fun r => r.machine_id == m.id)) k
        = ⟨k, none, none, none⟩) := by
  refine ⟨?_, ?_, ?_⟩
  · unfold aggregate_metrics
    simp only [hok]
  · rw [List.map_map]
    have : (MetricsAggregate.metric ∘
        aggregateForKey (db.monitoring.filter (fun r => r.machine_id == m.id)))
        = fun k => k := by
      funext k
      exact aggregateForKey_metric _ k
    rw [this, List.map_id']
  · intro k hk
    unfold aggregateForKey
    simp only [hk]

/-- C7 witness: `db1` stores no metrics, so aggregating `cpu` over
`machine1` reports the all-absent summary. -/
theorem c7_aggregate_empty_key_all_absent_witness :
    ensure_machine_ownership "AA:BB" user1 db1 = .ok machine1 ∧
    aggregate_metrics "AA:BB" ["cpu"] user1 db1
      = .ok [⟨"cpu", none, none, none⟩] :=
  ⟨rfl, by
    have h := (c7_aggregate_empty_key_all_absent db1 user1 "AA:BB" ["cpu"] machine1 rfl).1
    exact h⟩

/-! ## C9 -/

/-- C9 (implicit): booleans count as numbers in aggregation, because
`isinstance(value, (int, float))` accepts `bool`; a boolean scalar or
a boolean nested `usage` field enters the value set as 1.0 / 0.0. -/
theorem c9_aggregation_accepts_booleans :
    (∀ b : Bool, floatCast (.pbool b) = some (if b then (1 : Rat) else 0)) ∧
    (∀ (k : String) (b : Bool) (mid : Nat) (ts : PyDatetime) (ref : String)
       (rest : List (String × PyVal)),
      collectValues k [⟨mid, ts, (k, .pbool b) :: rest, ref⟩]
        = [if b then (1 : Rat) else 0]) ∧
    (∀ (k : String) (b : Bool) (mid : Nat) (ts : PyDatetime) (ref : String),
      collectValues k [⟨mid, ts, [(k, .pdict [("usage", .pbool b)])], ref⟩]
        = [if b then (1 : Rat) else 0]) := by
  refine ⟨fun b => rfl, ?_, ?_⟩
  · intro k b mid ts ref rest
    simp [collectValues, dictGetD, dictGet, List.find?, floatCast]
  · intro k b mid ts ref
    simp [collectValues, dictGetD, dictGet, List.find?, floatCast,
      probeCandidates, aggregationCandidates]

/-! ## C10 -/

/-- C10 (implicit): the correlating MAC of a metrics submission is the
nested `machine_info.mac` when truthy, else the top-level
`mac_address`; when both are missing or falsy (an empty string
included) the request fails with 400 "MAC address missing in payload"
on an unchanged store — before any ownership check and without storing
a record. -/
theorem c10_metrics_mac_derivation (data mi : List (String × PyVal)) (u : User) (db : DB)
    (hmi : dictGetD data "machine_info" (.pdict []) = .pdict mi) :
    (pyTruthy ((dictGet mi "mac").getD .pnone) = true →
      derive_mac data = .ok ((dictGet mi "mac").getD .pnone)) ∧
    (pyTruthy ((dictGet mi "mac").getD .pnone) = false →
      derive_mac data = .ok ((dictGet data "mac_address").getD .pnone)) ∧
    (pyTruthy ((dictGet mi "mac").getD .pnone) = false →
     pyTruthy ((dictGet data "mac_address").getD .pnone) = false →
      update_machine_status data u db
        = (.error (.http 400 "MAC address missing in payload"), db)) := by
  have hd : ∀ hb : Bool, pyTruthy ((dictGet mi "mac").getD .pnone) = hb →
      derive_mac data
        = .ok (if hb then (dictGet mi "mac").getD .pnone
               else (dictGet data "mac_address").getD .pnone) := by
    intro hb hhb
    unfold derive_mac
    rw [hmi]
    cases hb <;> simp [pyOr, hhb]
  refine ⟨fun h1 => by simpa using hd true h1, fun h1 => by simpa using hd false h1, ?_⟩
  intro h1 h2
  have hdm := hd false h1
  unfold update_machine_status
  rw [hdm]
  simp [h2]

/-- Concrete metrics payload whose nested and top-level MACs are both
the empty string. -/
def metricsPayloadNoMac : List (String × PyVal) :=
  [("machine_info", .pdict [("mac", .pstr "")]), ("mac_address", .pstr "")]

/-- C10 witness: the empty-string MACs are rejected with the 400 and
`db1` is left untouched. -/
theorem c10_metrics_mac_derivation_witness :
    dictGetD metricsPayloadNoMac "machine_info" (.pdict []) = .pdict [("mac", .pstr "")] ∧
    update_machine_status metricsPayloadNoMac user1 db1
      = (.error (.http 400 "MAC address missing in payload"), db1) :=
  ⟨rfl,
   (c10_metrics_mac_derivation metricsPayloadNoMac [("mac", .pstr "")] user1 db1 rfl).2.2
     (by decide) (by decide)⟩

/-! ## C3 -/

/-- C3: metric queries on a gated machine honour the inclusive window,
come back newest-first, never exceed the requested `limit` nor the
hard ceiling of 1000 (a request beyond the ceiling is refused with a
422 validation error independent of the stored data), and are complete
whenever the matching rows fit under the limit. -/
theorem c3_query_window_order_limit (db : DB) (u : User) (mac : String)
    (start end_ : Option PyDatetime) (limit : Int) (m : Machine)
    (hok : ensure_machine_ownership mac u db = .ok m)
    (hnn : 0 ≤ limit) :
    (1000 < limit →
      list_machine_metrics mac start end_ limit u db
        = .error (.http 422 "Input should be less than or equal to 1000")) ∧
    (limit ≤ 1000 →
      ∀ out, list_machine_metrics mac start end_ limit u db = .ok out →
        List.Sorted newestFirst out ∧
        out.length ≤ limit.toNat ∧
        out.length ≤ 1000 ∧
        (∀ r ∈ out, r.machine_id = m.id ∧
          (∀ s, start = some s → toEpoch s ≤ toEpoch r.timestamp) ∧
          (∀ e, end_ = some e → toEpoch r.timestamp ≤ toEpoch e)) ∧
        ((db.monitoring.filter (inWindow m.id start end_)).length ≤ limit.toNat →
          ∀ r ∈ db.monitoring.filter (inWindow m.id start end_), r ∈ out)) := by
  constructor
  · intro hgt
    unfold list_machine_metrics
    rw [if_pos hgt]
  · intro hle out hout
    unfold list_machine_metrics at hout
    rw [if_neg (by omega)] at hout
    simp only [hok, Except.ok.injEq] at hout
    rw [applyLimit, if_neg (by omega)] at hout
    subst hout
    have hsorted :=
      List.sorted_insertionSort newestFirst (db.monitoring.filter (inWindow m.id start end_))
    refine ⟨?_, ?_, ?_, ?_, ?_⟩
    · exact hsorted.sublist (List.take_sublist _ _)
    · exact List.length_take_le _ _
    · exact le_trans (List.length_take_le _ _) (by omega)
    · intro r hr
      have hr' := List.mem_insertionSort newestFirst |>.mp (List.mem_of_mem_take hr)
      obtain ⟨_, hwin⟩ := List.mem_filter.mp hr'
      unfold inWindow at hwin
      simp only [Bool.and_eq_true, beq_iff_eq] at hwin
      refine ⟨hwin.1.1, ?_, ?_⟩
      · intro s hs
        subst hs
        exact of_decide_eq_true hwin.1.2
      · intro e he
        subst he
        exact of_decide_eq_true hwin.2
    · intro hlen r hr
      have hlen' :
          ((db.monitoring.filter (inWindow m.id start end_)).insertionSort
            newestFirst).length ≤ limit.toNat := by
        rw [(List.perm_insertionSort newestFirst _).length_eq]
        exact hlen
      rw [List.take_of_length_le hlen']
      exact (List.mem_insertionSort newestFirst).mpr hr

/-- Two monitoring rows for `machine1`, the second more recent. -/
def rec1 : MonitoringData := ⟨1, ⟨2024, 5, 20, 10, 0, 0, some 0⟩, [("cpu", .pfloat 1)], "r1"⟩

/-- The more recent of the two sample monitoring rows. -/
def rec2 : MonitoringData := ⟨1, ⟨2024, 5, 20, 11, 0, 0, some 0⟩, [("cpu", .pfloat 2)], "r2"⟩

/-- A store holding `machine1` with the two sample rows. -/
def dbM : DB := ⟨[machine1], [], [rec1, rec2], 2, "ref-2", sampleNow⟩

/-- C3 counterexample: the `le=1000` validation puts no lower bound on
`limit`, so a caller-requested `limit = -1` reaches the query, where
the SQLite backend ignores a negative `LIMIT`: over two stored rows
the call returns both records — more than `limit` — so the
"at most limit records" cap fails for that caller-requested value. -/
theorem c3_counterexample_negative_limit_unbounded :
    list_machine_metrics "AA:BB" none none (-1) user1 dbM = .ok [rec2, rec1] ∧
    ¬ ((([rec2, rec1] : List MonitoringData).length : Int) ≤ -1) :=
  ⟨rfl, by decide⟩

/-- C3 witness: querying `machine1` with `limit = 1` over two stored
rows returns exactly the most recent one, and the theorem's bounds
hold for it. -/
theorem c3_query_window_order_limit_witness :
    list_machine_metrics "AA:BB" none none 1 user1 dbM = .ok [rec2] ∧
    List.Sorted newestFirst [rec2] ∧
    ([rec2] : List MonitoringData).length ≤ (1 : Int).toNat := by
  have h := (c3_query_window_order_limit dbM user1 "AA:BB" none none 1 machine1 rfl
      (by decide)).2 (by decide) [rec2] rfl
  exact ⟨rfl, h.1, h.2.1⟩

/-! ## C4 -/

/-- C4 counterexample: a payload carrying the unparseable timestamp
string "garbage" is NOT stamped with the current UTC time — the
handler raises an uncaught `ValueError` and stores no record at all
(the resulting store still has an empty metrics table). -/
theorem c4_counterexample_unparseable_string_raises :
    update_machine_status
        [("mac_address", .pstr "AA:BB"), ("timestamp", .pstr "garbage")] user1 db1
      = (.error (.exn "ValueError"), db1) ∧
    (update_machine_status
        [("mac_address", .pstr "AA:BB"), ("timestamp", .pstr "garbage")] user1 db1).2.monitoring
      = [] :=
  ⟨rfl, rfl⟩

/-- C4 (amended): on a gated submission, a timestamp string is
`Z`-normalized and parsed — `"2024-05-20T10:33:00Z"` is stored as the
instant with explicit offset +00:00 — and a payload whose timestamp
field is absent or not a string is stamped with the current UTC time;
but a timestamp string that fails ISO-8601 parsing raises an uncaught
`ValueError` and stores nothing, instead of falling back to the
current time. -/
theorem c4_amended_timestamp_handling (data : List (String × PyVal)) (u : User)
    (db : DB) (m : Machine) (macS : String)
    (hd : derive_mac data = .ok (.pstr macS))
    (ht : pyTruthy (.pstr macS) = true)
    (hok : ensure_machine_ownership macS u db = .ok m) :
    (∀ s dt, dictGetD data "timestamp" .pnone = .pstr s →
      fromisoformat (zReplace s) = some dt →
      update_machine_status data u db
        = (.ok (db.nextRef, dt),
           { db with monitoring := db.monitoring ++ [⟨m.id, dt, data, db.nextRef⟩] })) ∧
    (∀ v, dictGetD data "timestamp" .pnone = v → (∀ s, v ≠ .pstr s) →
      update_machine_status data u db
        = (.ok (db.nextRef, db.nowUtc),
           { db with monitoring := db.monitoring ++ [⟨m.id, db.nowUtc, data, db.nextRef⟩] })) ∧
    (∀ s, dictGetD data "timestamp" .pnone = .pstr s →
      fromisoformat (zReplace s) = none →
      update_machine_status data u db = (.error (.exn "ValueError"), db)) ∧
    fromisoformat (zReplace "2024-05-20T10:33:00Z")
      = some ⟨2024, 5, 20, 10, 33, 0, some 0⟩ := by
  refine ⟨?_, ?_, ?_, rfl⟩
  · intro s dt hts hparse
    unfold update_machine_status
    rw [hd]
    simp only [ht, Bool.not_true, Bool.false_eq_true, if_false, ite_false, hok, hts, hparse]
  · intro v htv hnotstr
    cases v
    case pstr s => exact absurd rfl (hnotstr s)
    all_goals
      unfold update_machine_status
      rw [hd]
      simp only [ht, Bool.not_true, Bool.false_eq_true, if_false, ite_false, hok, htv]
  · intro s hts hparse
    unfold update_machine_status
    rw [hd]
    simp only [ht, Bool.not_true, Bool.false_eq_true, if_false, ite_false, hok, hts, hparse]

/-- Metrics payload carrying the `Z`-suffixed ISO timestamp of the
claim's example. -/
def metricsPayloadZ : List (String × PyVal) :=
  [("mac_address", .pstr "AA:BB"), ("timestamp", .pstr "2024-05-20T10:33:00Z")]

/-- C4 witness: submitting the example payload against `db1` stores a
record timestamped 2024-05-20T10:33:00 at explicit offset +00:00. -/
theorem c4_amended_timestamp_handling_witness :
    update_machine_status metricsPayloadZ user1 db1
      = (.ok ("ref-1", ⟨2024, 5, 20, 10, 33, 0, some 0⟩),
         { db1 with monitoring :=
            [⟨1, ⟨2024, 5, 20, 10, 33, 0, some 0⟩, metricsPayloadZ, "ref-1"⟩] }) := by
  have h := (c4_amended_timestamp_handling metricsPayloadZ user1 db1 machine1 "AA:BB"
      rfl rfl rfl).1 "2024-05-20T10:33:00Z" ⟨2024, 5, 20, 10, 33, 0, some 0⟩ rfl rfl
  exact h

/-! ## C8 -/

end RocksMon
